import Mathlib

/-!
Shallow embedding of the OpenImageIO SIMD vector-math layer
(src/include/OpenImageIO/simd.h): the mask4, int4, float4, float3 and
matrix44 value types and the free-function algebra over them.

Modelling conventions:
* A float lane is modelled exactly as either a rational number or one of
  the IEEE special values plusInf, minusInf, NaN (type `RF`).  Arithmetic
  is the exact extended-real arithmetic with the IEEE rules for special
  values and for division by zero; no rounding is modelled.  Every claim
  below evaluates floating arithmetic only at points where IEEE single
  precision is exact, so the exact model is faithful there.
* `Rat.sqrt` stands in for the C `sqrtf`; the two agree exactly at
  perfect-square rationals, which are the only inputs at which any claim
  evaluates a square root.
* A mask4 lane is modelled as its 32-bit pattern, a natural number below
  2^32 (the scalar backend stores the C ints 0 and -1, whose patterns are
  0 and 4294967295).
* An int4 lane is modelled as the mathematical integer held by the C
  `int`; the narrowing stores are the C unsigned conversions, i.e.
  reduction modulo 2^16 / 2^8.
* Unless noted otherwise, each operation is translated from the generic
  (non-accelerated) code path of simd.h; where a claim hinges on an
  accelerated code path (the SSE2 `floori` trick, the SSE4.1
  `_mm_round_ps`), that path is embedded separately under an `SSE`
  suffixed name.
-/

namespace OIIOSimd

/-- One float lane: an exact rational value or an IEEE special value. -/
inductive RF where
  | fin : ℚ → RF
  | pinf : RF
  | ninf : RF
  | nan : RF
deriving DecidableEq, Repr

namespace RF

/-- IEEE addition on exact lane values. -/
def add : RF → RF → RF
  | nan, _ => nan
  | _, nan => nan
  | fin a, fin b => fin (a + b)
  | fin _, pinf => pinf
  | fin _, ninf => ninf
  | pinf, fin _ => pinf
  | ninf, fin _ => ninf
  | pinf, pinf => pinf
  | ninf, ninf => ninf
  | pinf, ninf => nan
  | ninf, pinf => nan

/-- IEEE negation. -/
def neg : RF → RF
  | fin a => fin (-a)
  | pinf => ninf
  | ninf => pinf
  | nan => nan

/-- IEEE subtraction. -/
def sub (a b : RF) : RF := add a (neg b)

/-- IEEE multiplication; 0 * Inf is NaN. -/
def mul : RF → RF → RF
  | nan, _ => nan
  | _, nan => nan
  | fin a, fin b => fin (a * b)
  | fin a, pinf => if 0 < a then pinf else if a < 0 then ninf else nan
  | fin a, ninf => if 0 < a then ninf else if a < 0 then pinf else nan
  | pinf, fin b => if 0 < b then pinf else if b < 0 then ninf else nan
  | ninf, fin b => if 0 < b then ninf else if b < 0 then pinf else nan
  | pinf, pinf => pinf
  | pinf, ninf => ninf
  | ninf, pinf => ninf
  | ninf, ninf => pinf

/-- IEEE division; x/0 is ±Inf for x ≠ 0 and NaN for 0/0 (there is no
    negative zero in the exact model, so a zero divisor counts as +0). -/
def div : RF → RF → RF
  | nan, _ => nan
  | _, nan => nan
  | fin a, fin b =>
      if b = 0 then (if a = 0 then nan else if 0 < a then pinf else ninf)
      else fin (a / b)
  | fin _, pinf => fin 0
  | fin _, ninf => fin 0
  | pinf, fin b => if b < 0 then ninf else pinf
  | ninf, fin b => if b < 0 then pinf else ninf
  | pinf, pinf => nan
  | pinf, ninf => nan
  | ninf, pinf => nan
  | ninf, ninf => nan

/-- IEEE equality test (`==`): false on any NaN operand. -/
def beq : RF → RF → Bool
  | fin a, fin b => a = b
  | pinf, pinf => true
  | ninf, ninf => true
  | _, _ => false

/-- IEEE less-than (`<`): false on any NaN operand. -/
def blt : RF → RF → Bool
  | fin a, fin b => a < b
  | fin _, pinf => true
  | ninf, fin _ => true
  | ninf, pinf => true
  | _, _ => false

/-- IEEE less-or-equal (`<=`): false on any NaN operand. -/
def ble : RF → RF → Bool
  | fin a, fin b => a ≤ b
  | fin _, pinf => true
  | ninf, fin _ => true
  | ninf, pinf => true
  | pinf, pinf => true
  | ninf, ninf => true
  | _, _ => false

/-- Square root; models `sqrtf`, with which it agrees exactly at
    perfect-square rationals (the only inputs any claim uses). -/
def sqrtRF : RF → RF
  | fin q => if q < 0 then nan else fin (Rat.sqrt q)
  | pinf => pinf
  | ninf => nan
  | nan => nan

/-- Floor of a rational, written so the kernel can evaluate it
    (`Int.ediv` rounds toward negative infinity for a positive
    denominator); equal to `Int.floor` by `Rat.floor_def`. -/
def floorQ (q : ℚ) : ℤ := q.num / q.den

/-- `floorf`: exact for every finite lane (a float's floor is always
    exactly representable). -/
def floorRF : RF → RF
  | fin q => fin (floorQ q)
  | pinf => pinf
  | ninf => ninf
  | nan => nan

/-- `roundf` on rationals: round to nearest, ties away from zero. -/
def roundAwayQ (q : ℚ) : ℤ :=
  if 0 ≤ q then floorQ (q + 1/2) else -floorQ (-q + 1/2)

/-- `roundf` lanewise: round to nearest integer, ties away from zero. -/
def roundAway : RF → RF
  | fin q => fin (roundAwayQ q)
  | pinf => pinf
  | ninf => ninf
  | nan => nan

/-- `_mm_round_ps` with `_MM_FROUND_TO_NEAREST_INT` on rationals:
    round to nearest, ties to even. -/
def roundEvenQ (q : ℚ) : ℤ :=
  if q - floorQ q < 1/2 then floorQ q
  else if 1/2 < q - floorQ q then floorQ q + 1
  else if floorQ q % 2 = 0 then floorQ q else floorQ q + 1

/-- `_mm_round_ps` lanewise: round to nearest integer, ties to even. -/
def roundEven : RF → RF
  | fin q => fin (roundEvenQ q)
  | pinf => pinf
  | ninf => ninf
  | nan => nan

/-- The C `(int)` cast: truncation toward zero.  Conversion of a special
    value or an out-of-range value is undefined behaviour in C; the model
    returns 0 there (no claim evaluates the cast at such an input). -/
def cvtInt : RF → ℤ
  | fin q => if 0 ≤ q then floorQ q else -floorQ (-q)
  | _ => 0

/-- Is the lane a (finite) number? -/
def isFinite : RF → Prop
  | fin _ => True
  | _ => False

instance : DecidablePred isFinite := by
  intro x; unfold isFinite; cases x <;> infer_instance

end RF

attribute [local semireducible] Rat.add Rat.mul Rat.sub Rat.inv

/-- The 4-lane float vector: one `RF` value per lane. -/
def float4 : Type := Fin 4 → RF

/-- The 4-lane int vector: the mathematical value of each C `int` lane. -/
def int4 : Type := Fin 4 → ℤ

/-- The 4-lane comparison mask: the 32-bit pattern of each lane, stored
    as a natural number below 2^32 (the scalar backend keeps C ints whose
    canonical values are 0 and -1, i.e. patterns 0 and 4294967295). -/
def mask4 : Type := Fin 4 → ℕ

/-- The all-ones 32-bit lane pattern, the bit pattern of the C int -1. -/
def allOnes : ℕ := 4294967295

/-- The pattern a mask-producing operation stores for one lane:
    `cond ? -1 : 0` in the scalar backend. -/
def boolLane (b : Bool) : ℕ := if b then allOnes else 0

/-- Four lanes given explicitly (reduces definitionally at a literal
    index, unlike the Matrix notation). -/
def vec4 {α : Type} (a b c d : α) : Fin 4 → α := fun i =>
  match i with
  | ⟨0, _⟩ => a
  | ⟨1, _⟩ => b
  | ⟨2, _⟩ => c
  | ⟨3, _⟩ => d

namespace mask4

/-- `mask4::load(bool)`: broadcast `a ? -1 : 0` into every lane. -/
def load1 (a : Bool) : mask4 := fun _ => boolLane a

/-- `mask4::load(bool,bool,bool,bool)`: each lane is set to -1 or 0. -/
def load4 (a b c d : Bool) : mask4 := vec4 (boolLane a) (boolLane b) (boolLane c) (boolLane d)

/-- `mask4::operator[] const`: `bool(m_val[i])`, the C truth test. -/
def get (m : mask4) (i : Fin 4) : Bool := m i ≠ 0

/-- `mask4(const int4&)`: lane is `ival[i] ? -1 : 0`. -/
def ofInt4 (v : int4) : mask4 := fun i => boolLane (v i ≠ 0)

/-- `operator! (mask4)`: lanewise `m_val[i] ^ (-1)` (xor with all ones). -/
def mnot (a : mask4) : mask4 := fun i => Nat.xor (a i) allOnes

/-- `operator& (mask4, mask4)`: lanewise bitwise and. -/
def mand (a b : mask4) : mask4 := fun i => Nat.land (a i) (b i)

/-- `operator| (mask4, mask4)`: lanewise bitwise or. -/
def mor (a b : mask4) : mask4 := fun i => Nat.lor (a i) (b i)

/-- `operator^ (mask4, mask4)`: lanewise bitwise xor. -/
def mxor (a b : mask4) : mask4 := fun i => Nat.xor (a i) (b i)

/-- `mask4::operator~`: lanewise bit complement `~m_val[i]` (on the
    32-bit pattern, the same as xor with all ones). -/
def mcompl (a : mask4) : mask4 := fun i => Nat.xor (a i) allOnes

/-- `operator== (mask4, mask4)`: lanewise `a.m_val[i] == b.m_val[i] ? -1 : 0`. -/
def meq (a b : mask4) : mask4 := fun i => boolLane (a i = b i)

/-- `operator!= (mask4, mask4)`: lanewise `a.m_val[i] != b.m_val[i] ? -1 : 0`. -/
def mne (a b : mask4) : mask4 := fun i => boolLane (a i ≠ b i)

/-- `shuffle<i0,i1,i2,i3>(mask4)`: the scalar backend rebuilds the mask
    from the four bool reads `a[i0], a[i1], a[i2], a[i3]`. -/
def shuffleM (i0 i1 i2 i3 : Fin 4) (a : mask4) : mask4 :=
  load4 (get a i0) (get a i1) (get a i2) (get a i3)

/-- `insert<i>(mask4, bool)`: copy, then `tmp[i] = val ? -1 : 0`. -/
def insertM (i : Fin 4) (a : mask4) (val : Bool) : mask4 :=
  fun j => if j = i then boolLane val else a j

/-- `reduce_and(mask4)`: `v[0] & v[1] & v[2] & v[3]` over the bool reads. -/
def reduceAnd (m : mask4) : Bool := get m 0 && get m 1 && get m 2 && get m 3

/-- `reduce_or(mask4)`: `v[0] | v[1] | v[2] | v[3]` over the bool reads. -/
def reduceOr (m : mask4) : Bool := get m 0 || get m 1 || get m 2 || get m 3

/-- `all(mask4)`. -/
def allM (m : mask4) : Bool := reduceAnd m

/-- `any(mask4)`. -/
def anyM (m : mask4) : Bool := reduceOr m

end mask4

namespace int4

/-- `int4::load(int,int,int,int)` / the 4-value constructor. -/
def mk4 (a b c d : ℤ) : int4 := vec4 a b c d

/-- `operator+ (int4, int4)` (scalar path `a[i] + b[i]`; lane values in
    the claims stay far inside the int range, so no wrapping occurs). -/
def addI (a b : int4) : int4 := fun i => a i + b i

/-- `operator== (int4, int4)`: lanewise `a[i] == b[i] ? -1 : 0`. -/
def cmpEq (a b : int4) : mask4 := fun i => boolLane (a i = b i)

/-- `operator< (int4, int4)`: lanewise `a[i] < b[i] ? -1 : 0`. -/
def cmpLt (a b : int4) : mask4 := fun i => boolLane (a i < b i)

/-- `operator> (int4, int4)`: lanewise `a[i] > b[i] ? -1 : 0`. -/
def cmpGt (a b : int4) : mask4 := fun i => boolLane (b i < a i)

/-- `operator!= (int4, int4)`: `!(a == b)`. -/
def cmpNe (a b : int4) : mask4 := mask4.mnot (cmpEq a b)

/-- `operator>= (int4, int4)`: `!(a < b)`. -/
def cmpGe (a b : int4) : mask4 := mask4.mnot (cmpLt a b)

/-- `operator<= (int4, int4)`: `!(a > b)`. -/
def cmpLe (a b : int4) : mask4 := mask4.mnot (cmpGt a b)

/-- `blend(int4 a, int4 b, mask4)`: scalar path `mask[i] ? b[i] : a[i]`. -/
def blendI (a b : int4) (mask : mask4) : int4 :=
  fun i => if mask4.get mask i then b i else a i

/-- `select(mask4, int4 a, int4 b)`: `blend(b, a, mask)`. -/
def selectI (mask : mask4) (a b : int4) : int4 := blendI b a mask

/-- `int4::store(unsigned short*)`, scalar path `values[i] = m_val[i]`:
    the C int → unsigned short conversion, i.e. reduction modulo 2^16. -/
def storeUShort (v : int4) : Fin 4 → ℕ := fun i => (v i % 65536).toNat

/-- `int4::store(unsigned char*)`, scalar path `values[i] = m_val[i]`:
    the C int → unsigned char conversion, i.e. reduction modulo 2^8. -/
def storeUChar (v : int4) : Fin 4 → ℕ := fun i => (v i % 256).toNat

end int4

/-- `bitcast_to_int4(mask4)`: reinterpret each 32-bit lane pattern as a
    signed two's-complement int. -/
def patToInt (p : ℕ) : ℤ := if p < 2147483648 then (p : ℤ) else (p : ℤ) - 4294967296

/-- `bitcast_to_int4 (const mask4&)` lanewise. -/
def bitcastMaskToInt4 (m : mask4) : int4 := fun i => patToInt (m i)

namespace float4

/-- The 4-value constructor `float4(a,b,c,d)`. -/
def mk4 (a b c d : RF) : float4 := vec4 a b c d

/-- Four finite lanes given by rationals. -/
def finGen (a b c d : ℚ) : float4 := mk4 (RF.fin a) (RF.fin b) (RF.fin c) (RF.fin d)

/-- `float4::Zero()`. -/
def zero4 : float4 := fun _ => RF.fin 0

/-- `operator+ (float4, float4)`: lanewise `a[i] + b[i]`. -/
def addF (a b : float4) : float4 := fun i => RF.add (a i) (b i)

/-- `operator* (float4, float4)`: lanewise `a[i] * b[i]`. -/
def mulF (a b : float4) : float4 := fun i => RF.mul (a i) (b i)

/-- `operator/ (float4, float4)`: lanewise `a[i] / b[i]`. -/
def divF (a b : float4) : float4 := fun i => RF.div (a i) (b i)

/-- `operator== (float4, float4)`: lanewise `a[i] == b[i] ? -1 : 0`. -/
def cmpEqF (a b : float4) : mask4 := fun i => boolLane (RF.beq (a i) (b i))

/-- `operator!= (float4, float4)`: lanewise `a[i] != b[i] ? -1 : 0`
    (true on NaN operands, the C `!=`). -/
def cmpNeF (a b : float4) : mask4 := fun i => boolLane (!(RF.beq (a i) (b i)))

/-- `operator< (float4, float4)`: lanewise `a[i] < b[i] ? -1 : 0`. -/
def cmpLtF (a b : float4) : mask4 := fun i => boolLane (RF.blt (a i) (b i))

/-- `operator> (float4, float4)`: lanewise `a[i] > b[i] ? -1 : 0`. -/
def cmpGtF (a b : float4) : mask4 := fun i => boolLane (RF.blt (b i) (a i))

/-- `operator>= (float4, float4)`: lanewise `a[i] >= b[i] ? -1 : 0`. -/
def cmpGeF (a b : float4) : mask4 := fun i => boolLane (RF.ble (b i) (a i))

/-- `operator<= (float4, float4)`: lanewise `a[i] <= b[i] ? -1 : 0`. -/
def cmpLeF (a b : float4) : mask4 := fun i => boolLane (RF.ble (a i) (b i))

/-- `blend(float4 a, float4 b, mask4)`: scalar path `mask[i] ? b[i] : a[i]`. -/
def blendF (a b : float4) (mask : mask4) : float4 :=
  fun i => if mask4.get mask i then b i else a i

/-- `blend0(float4, mask4)`: `mask[i] ? a[i] : 0.0f`. -/
def blend0F (a : float4) (mask : mask4) : float4 :=
  fun i => if mask4.get mask i then a i else RF.fin 0

/-- `blend0not(float4, mask4)`: `mask[i] ? 0.0f : a[i]`. -/
def blend0notF (a : float4) (mask : mask4) : float4 :=
  fun i => if mask4.get mask i then RF.fin 0 else a i

/-- `select(mask4, float4 a, float4 b)`: `blend(b, a, mask)`. -/
def selectF (mask : mask4) (a b : float4) : float4 := blendF b a mask

/-- `safe_div(float4, float4)`, scalar path:
    `b[i] == 0.0f ? 0.0f : a[i] / b[i]` per lane. -/
def safeDiv (a b : float4) : float4 :=
  fun i => if RF.beq (b i) (RF.fin 0) then RF.fin 0 else RF.div (a i) (b i)

/-- `shuffle<i0,i1,i2,i3>(float4)`: `float4(a[i0], a[i1], a[i2], a[i3])`. -/
def shuffleF (i0 i1 i2 i3 : Fin 4) (a : float4) : float4 := vec4 (a i0) (a i1) (a i2) (a i3)

/-- The broadcast form `shuffle<i>(a) = shuffle<i,i,i,i>(a)`. -/
def bcast (i : Fin 4) (a : float4) : float4 := shuffleF i i i i a

/-- `insert<i>(float4, float)`: copy, then `tmp[i] = val`. -/
def insertF (i : Fin 4) (a : float4) (v : RF) : float4 :=
  fun j => if j = i then v else a j

/-- `float4::xyz0()`: `insert<3>(*this, 0.0f)`. -/
def xyz0 (a : float4) : float4 := insertF 3 a (RF.fin 0)

/-- `float4::xyz1()`: `insert<3>(*this, 1.0f)`. -/
def xyz1 (a : float4) : float4 := insertF 3 a (RF.fin 1)

/-- `vreduce_add(float4)`, scalar path:
    `float4(v[0] + v[1] + v[2] + v[3])` (broadcast of the sum). -/
def vreduceAdd (v : float4) : float4 :=
  fun _ => RF.add (RF.add (RF.add (v 0) (v 1)) (v 2)) (v 3)

/-- `sqrt(float4)`: lanewise `sqrtf`. -/
def sqrtF (v : float4) : float4 := fun i => RF.sqrtRF (v i)

/-- `rsqrt_fast(float4)`: the approximate reciprocal square root.  The
    scalar fallback is `1.0f / sqrtf(a[i])`; like the hardware
    approximation it returns +Inf on a zero lane. -/
def rsqrtFast (v : float4) : float4 := fun i => RF.div (RF.fin 1) (RF.sqrtRF (v i))

/-- `floor(float4)`: lanewise `floorf`. -/
def floorF (a : float4) : float4 := fun i => RF.floorRF (a i)

/-- `floori(float4)`, generic scalar path: `(int)floorf(a[i])` per lane. -/
def floori (a : float4) : int4 := fun i => RF.cvtInt (RF.floorRF (a i))

/-- `floori(float4)`, SSE2/SSE3 path: truncate with `int4 i(a)`
    (`_mm_cvttps_epi32`), then add the -1/0 lanes of
    `bitcast_to_int4(a < float4::Zero())`. -/
def flooriSSE2 (a : float4) : int4 :=
  int4.addI (fun i => RF.cvtInt (a i)) (bitcastMaskToInt4 (cmpLtF a zero4))

/-- `round(float4)`, generic scalar path: lanewise `roundf`
    (round to nearest, ties away from zero). -/
def roundF (a : float4) : float4 := fun i => RF.roundAway (a i)

/-- `round(float4)`, SSE4.1 path:
    `_mm_round_ps(a, _MM_FROUND_TO_NEAREST_INT | _MM_FROUND_NO_EXC)`
    (round to nearest, ties to even). -/
def roundSSE4 (a : float4) : float4 := fun i => RF.roundEven (a i)

/-- `rint(float4)`: `int4(round(a))` — the `(int)` conversion of each
    (already integral) rounded lane, on the generic path. -/
def rint (a : float4) : int4 := fun i => RF.cvtInt (roundF a i)

/-- `rint(float4)` as compiled on the SSE4.1 path: `int4(round(a))`
    with the `_mm_round_ps` rounding. -/
def rintSSE4 (a : float4) : int4 := fun i => RF.cvtInt (roundSSE4 a i)

end float4

/-- float3 reuses the float4 representation; lane 3 is padding whose
    value is unspecified after most operations. -/
def float3 : Type := float4

namespace float3

/-- `float3(a,b,c)`: `float4::load(a,b,c)` whose defaulted 4th argument
    is `0.0f`. -/
def mk3 (a b c : RF) : float3 := float4.mk4 a b c (RF.fin 0)

/-- `float3(float val)`: `float4::load(val, val, val, 0.0f)`. -/
def bcast3 (v : RF) : float3 := float4.mk4 v v v (RF.fin 0)

/-- `operator/ (float3, float3)`: `float4(a) / b.xyz1()` — the divisor's
    4th lane is forced to 1 before the divide. -/
def divF3 (a b : float3) : float3 := float4.divF a (float4.xyz1 b)

/-- `vdot3(float3, float3)`, generic path:
    `float3(vreduce_add((a*b).xyz0()).xyz0())`. -/
def vdot3 (a b : float3) : float3 :=
  float4.xyz0 (float4.vreduceAdd (float4.xyz0 (float4.mulF a b)))

/-- `float3::normalized()` (SIMD-structured path):
    `len2 = vdot3(*this, *this); return float3(safe_div(*this, sqrt(len2)))`. -/
def normalized (v : float3) : float3 := float4.safeDiv v (float4.sqrtF (vdot3 v v))

/-- `float3::normalized_fast()`:
    `len2 = vdot3(*this, *this);
     invlen = blend0not(rsqrt_fast(len2), len2 == float4::Zero());
     return float3(*this * invlen)`. -/
def normalizedFast (v : float3) : float3 :=
  float4.mulF v
    (float4.blend0notF (float4.rsqrtFast (vdot3 v v))
      (float4.cmpEqF (vdot3 v v) float4.zero4))

end float3

/-- `hdiv(float4)`, generic path:
    `d = a[3]; return d == 0.0f ? float3(0.0f) : float3(a[0]/d, a[1]/d, a[2]/d)`. -/
def hdiv (a : float4) : float3 :=
  if RF.beq (a 3) (RF.fin 0) then float3.bcast3 (RF.fin 0)
  else float3.mk3 (RF.div (a 0) (a 3)) (RF.div (a 1) (a 3)) (RF.div (a 2) (a 3))

/-- matrix44: four float4 rows (row-major). -/
def matrix44 : Type := Fin 4 → float4

namespace matrix44

/-- `matrix44(const float4& a, b, c, d)`: the four-row constructor. -/
def mkRows (a b c d : float4) : matrix44 := vec4 a b c d

/-- `matrix44::transformp(float3)`, SIMD-structured path:
    `R = shuffle<0>(V)*row0 + shuffle<1>(V)*row1 + shuffle<2>(V)*row2 + row3;
     R = R / shuffle<3>(R); return float3(R.xyz0())`. -/
def transformp (M : matrix44) (V : float3) : float3 :=
  let R := float4.addF
             (float4.addF
               (float4.addF (float4.mulF (float4.bcast 0 V) (M 0))
                            (float4.mulF (float4.bcast 1 V) (M 1)))
               (float4.mulF (float4.bcast 2 V) (M 2)))
             (M 3)
  float4.xyz0 (float4.divF R (float4.bcast 3 R))

end matrix44

/-- The four rows of the external (Imath) 4x4 identity matrix. -/
def identityRows : matrix44 :=
  matrix44.mkRows (float4.finGen 1 0 0 0) (float4.finGen 0 1 0 0)
                  (float4.finGen 0 0 1 0) (float4.finGen 0 0 0 1)

example : RF.div (RF.fin 1) (RF.fin 0) = RF.pinf := by decide
example : RF.div (RF.fin 0) (RF.fin 0) = RF.nan := by decide
example : RF.sqrtRF (RF.fin 1) = RF.fin 1 := by decide
example : RF.roundAwayQ (1/2) = 1 := by decide
example : RF.roundAwayQ (-1/2) = -1 := by decide
example : RF.roundEvenQ (1/2) = 0 := by decide
example : RF.roundEvenQ (5/2) = 2 := by decide
example : RF.cvtInt (RF.fin (-1/2)) = 0 := by decide

/-! ### Helper lemmas -/

/-- The IEEE equality test against 0.0 succeeds exactly on the zero lane. -/
theorem beq_zero_iff (x : RF) : RF.beq x (RF.fin 0) = true ↔ x = RF.fin 0 := by
  cases x <;> simp [RF.beq]

/-- A lane set from a bool is canonical. -/
theorem boolLane_canonical (b : Bool) : boolLane b = 0 ∨ boolLane b = allOnes := by
  cases b <;> simp [boolLane]

/-- Xor with the all-ones pattern preserves canonicality. -/
theorem xor_allOnes_canonical {x : ℕ} (h : x = 0 ∨ x = allOnes) :
    Nat.xor x allOnes = 0 ∨ Nat.xor x allOnes = allOnes := by
  rcases h with h | h <;> subst h <;> decide

/-- Bitwise and of canonical lanes is canonical. -/
theorem land_canonical {x y : ℕ} (hx : x = 0 ∨ x = allOnes) (hy : y = 0 ∨ y = allOnes) :
    Nat.land x y = 0 ∨ Nat.land x y = allOnes := by
  rcases hx with hx | hx <;> rcases hy with hy | hy <;> subst hx <;> subst hy <;> decide

/-- Bitwise or of canonical lanes is canonical. -/
theorem lor_canonical {x y : ℕ} (hx : x = 0 ∨ x = allOnes) (hy : y = 0 ∨ y = allOnes) :
    Nat.lor x y = 0 ∨ Nat.lor x y = allOnes := by
  rcases hx with hx | hx <;> rcases hy with hy | hy <;> subst hx <;> subst hy <;> decide

/-- Bitwise xor of canonical lanes is canonical. -/
theorem xor_canonical {x y : ℕ} (hx : x = 0 ∨ x = allOnes) (hy : y = 0 ∨ y = allOnes) :
    Nat.xor x y = 0 ∨ Nat.xor x y = allOnes := by
  rcases hx with hx | hx <;> rcases hy with hy | hy <;> subst hx <;> subst hy <;> decide

/-! ### Mask canonicality (claim C2) -/

/-- Every lane pattern is all-zeros (false) or all-ones (true). -/
def mask4.canonical (m : mask4) : Prop := ∀ i : Fin 4, m i = 0 ∨ m i = allOnes

instance : DecidablePred mask4.canonical := by
  intro m; unfold mask4.canonical; infer_instance

/-- `mask4::operator[] (int)`, the public `int&` component-set path: the
    caller assigns a C int straight into the raw lane, so `m[i] = true`
    stores the converted int 1 — the partial 32-bit pattern 1, not the
    canonical -1.  The declaration's own comment warns that the stored
    integer "may not have the same bit pattern as the bool returned by
    operator[]const". -/
def mask4.setLane (i : Fin 4) (m : mask4) (x : ℕ) : mask4 :=
  fun j => if j = i then x else m j

/-- The mask4 values producible through the bool and int4 constructors
    and loads, the logical operators, the mask4 comparison operators, the
    int4 and float4 comparison operators, shuffle, and insert (the
    compound assignments and `clear` are compositions of these).  It
    deliberately excludes mutation through the raw `int&` lane reference
    `mask4.setLane`, which can store any pattern whatsoever. -/
inductive ObservableMask : mask4 → Prop where
  | load1 (a : Bool) : ObservableMask (mask4.load1 a)
  | load4 (a b c d : Bool) : ObservableMask (mask4.load4 a b c d)
  | ofInt4 (v : int4) : ObservableMask (mask4.ofInt4 v)
  | mnot {m : mask4} : ObservableMask m → ObservableMask (mask4.mnot m)
  | mand {a b : mask4} : ObservableMask a → ObservableMask b → ObservableMask (mask4.mand a b)
  | mor {a b : mask4} : ObservableMask a → ObservableMask b → ObservableMask (mask4.mor a b)
  | mxor {a b : mask4} : ObservableMask a → ObservableMask b → ObservableMask (mask4.mxor a b)
  | mcompl {m : mask4} : ObservableMask m → ObservableMask (mask4.mcompl m)
  | meq (a b : mask4) : ObservableMask (mask4.meq a b)
  | mne (a b : mask4) : ObservableMask (mask4.mne a b)
  | intEq (a b : int4) : ObservableMask (int4.cmpEq a b)
  | intNe (a b : int4) : ObservableMask (int4.cmpNe a b)
  | intLt (a b : int4) : ObservableMask (int4.cmpLt a b)
  | intGt (a b : int4) : ObservableMask (int4.cmpGt a b)
  | intGe (a b : int4) : ObservableMask (int4.cmpGe a b)
  | intLe (a b : int4) : ObservableMask (int4.cmpLe a b)
  | fltEq (a b : float4) : ObservableMask (float4.cmpEqF a b)
  | fltNe (a b : float4) : ObservableMask (float4.cmpNeF a b)
  | fltLt (a b : float4) : ObservableMask (float4.cmpLtF a b)
  | fltGt (a b : float4) : ObservableMask (float4.cmpGtF a b)
  | fltGe (a b : float4) : ObservableMask (float4.cmpGeF a b)
  | fltLe (a b : float4) : ObservableMask (float4.cmpLeF a b)
  | shuffleM (i0 i1 i2 i3 : Fin 4) {m : mask4} :
      ObservableMask m → ObservableMask (mask4.shuffleM i0 i1 i2 i3 m)
  | insertM (i : Fin 4) (val : Bool) {m : mask4} :
      ObservableMask m → ObservableMask (mask4.insertM i m val)

/-- A mask whose lanes were all stored as `cond ? -1 : 0` is canonical. -/
theorem load4_canonical (a b c d : Bool) : mask4.canonical (mask4.load4 a b c d) := by
  intro i
  fin_cases i <;> simp only [mask4.load4, vec4] <;> exact boolLane_canonical _

/-- C2 (amended): every mask4 value produced by the bool/int4
    constructors and loads, the logical operators !, &, |, ^, ~, the
    comparison operators on mask4, int4 and float4, shuffle, and insert
    has each lane either all bits zero or all bits one.  The original
    claim's further clause "or mutated through any public member" is
    false of the code: the public `int&` component-set path can store a
    partial-bit lane (see the C2 counterexample). -/
theorem observable_mask_canonical {m : mask4} (h : ObservableMask m) :
    mask4.canonical m := by
  induction h with
  | load1 a => intro i; exact boolLane_canonical a
  | load4 a b c d => exact load4_canonical a b c d
  | ofInt4 v => intro i; exact boolLane_canonical _
  | mnot _ ih => intro i; exact xor_allOnes_canonical (ih i)
  | mand _ _ iha ihb => intro i; exact land_canonical (iha i) (ihb i)
  | mor _ _ iha ihb => intro i; exact lor_canonical (iha i) (ihb i)
  | mxor _ _ iha ihb => intro i; exact xor_canonical (iha i) (ihb i)
  | mcompl _ ih => intro i; exact xor_allOnes_canonical (ih i)
  | meq a b => intro i; exact boolLane_canonical _
  | mne a b => intro i; exact boolLane_canonical _
  | intEq a b => intro i; exact boolLane_canonical _
  | intNe a b => intro i; exact xor_allOnes_canonical (boolLane_canonical _)
  | intLt a b => intro i; exact boolLane_canonical _
  | intGt a b => intro i; exact boolLane_canonical _
  | intGe a b => intro i; exact xor_allOnes_canonical (boolLane_canonical _)
  | intLe a b => intro i; exact xor_allOnes_canonical (boolLane_canonical _)
  | fltEq a b => intro i; exact boolLane_canonical _
  | fltNe a b => intro i; exact boolLane_canonical _
  | fltLt a b => intro i; exact boolLane_canonical _
  | fltGt a b => intro i; exact boolLane_canonical _
  | fltGe a b => intro i; exact boolLane_canonical _
  | fltLe a b => intro i; exact boolLane_canonical _
  | shuffleM i0 i1 i2 i3 _ _ => exact load4_canonical _ _ _ _
  | insertM i val _ ih =>
      intro j
      by_cases hj : j = i
      · simp only [mask4.insertM, hj, if_pos rfl]; exact boolLane_canonical val
      · simp only [mask4.insertM, if_neg hj]; exact ih j

/-- C2 witness: a concrete observable mask (a logical combination of
    comparison results) is canonical. -/
theorem observable_mask_canonical_witness :
    mask4.canonical (mask4.mand (mask4.load4 true false true false)
                                (mask4.load4 true true false false)) :=
  observable_mask_canonical
    (ObservableMask.mand (ObservableMask.load4 true false true false)
                         (ObservableMask.load4 true true false false))

/-- C2 counterexample: a mask mutated through the public `int&`
    component-set member (`m[0] = true`, which stores the int 1) holds
    the partial-bit lane pattern 1 — neither all-zeros nor all-ones — and
    that state is observable through the public interface: the lane reads
    back true, yet `operator==` against a canonically-true mask reports
    the lanes unequal, and `bitcast_to_int4` exposes the raw pattern 1
    instead of -1. -/
theorem mask_setLane_partial_bits :
    ¬ mask4.canonical (mask4.setLane 0 (mask4.load1 false) 1) ∧
    mask4.get (mask4.setLane 0 (mask4.load1 false) 1) 0 = true ∧
    mask4.get (mask4.load1 true) 0 = true ∧
    mask4.meq (mask4.setLane 0 (mask4.load1 false) 1) (mask4.load1 true) 0 = 0 ∧
    bitcastMaskToInt4 (mask4.setLane 0 (mask4.load1 false) 1) 0 = 1 := by
  decide

/-! ### Safe division (claim C1) -/

/-- C1: in every lane where the divisor is exactly 0, `safe_div` returns
    exactly 0 (never Inf or NaN); in every lane where the divisor is
    nonzero it returns the IEEE quotient `a[k]/b[k]`; and
    `safe_div(x, float4::Zero())` is `float4::Zero()` in every lane. -/
theorem safe_div_zero_guard (a b : float4) (k : Fin 4) :
    (b k = RF.fin 0 → float4.safeDiv a b k = RF.fin 0) ∧
    (b k ≠ RF.fin 0 → float4.safeDiv a b k = RF.div (a k) (b k)) ∧
    float4.safeDiv a float4.zero4 k = RF.fin 0 := by
  refine ⟨fun h => ?_, fun h => ?_, ?_⟩
  · simp [float4.safeDiv, h, RF.beq]
  · have hb : RF.beq (b k) (RF.fin 0) = false := by
      rcases Bool.eq_false_or_eq_true (RF.beq (b k) (RF.fin 0)) with ht | hf
      · exact absurd ((beq_zero_iff _).1 ht) h
      · exact hf
    simp [float4.safeDiv, hb]
  · simp [float4.safeDiv, float4.zero4, RF.beq]

/-- C1 witness: both branches of the theorem at concrete inputs. -/
theorem safe_div_zero_guard_witness :
    float4.safeDiv (float4.finGen 3 3 3 3) float4.zero4 0 = RF.fin 0 ∧
    float4.safeDiv (float4.finGen 3 3 3 3) (float4.finGen 2 2 2 2) 0 =
      RF.div (float4.finGen 3 3 3 3 0) (float4.finGen 2 2 2 2 0) :=
  ⟨(safe_div_zero_guard (float4.finGen 3 3 3 3) float4.zero4 0).1 rfl,
   (safe_div_zero_guard (float4.finGen 3 3 3 3) (float4.finGen 2 2 2 2) 0).2.1
     (by decide)⟩

/-! ### Blend and select (claim C5) -/

/-- C5: for int4 and float4 and any canonical mask, blend picks `b[i]`
    exactly in the lanes whose mask pattern is all-ones and `a[i]` in the
    all-zero lanes, and select(mask,a,b) is blend(b,a,mask). -/
theorem blend_select_semantics (ai bi : int4) (af bf : float4) (mask : mask4)
    (hm : mask4.canonical mask) (i : Fin 4) :
    int4.blendI ai bi mask i = (if mask i = allOnes then bi i else ai i) ∧
    float4.blendF af bf mask i = (if mask i = allOnes then bf i else af i) ∧
    int4.selectI mask ai bi = int4.blendI bi ai mask ∧
    float4.selectF mask af bf = float4.blendF bf af mask := by
  refine ⟨?_, ?_, rfl, rfl⟩ <;>
    rcases hm i with h | h <;>
      simp [int4.blendI, float4.blendF, mask4.get, h, allOnes]

/-- C5 witness: the theorem applied to a concrete canonical mask. -/
theorem blend_select_semantics_witness :
    int4.blendI (int4.mk4 1 2 3 4) (int4.mk4 5 6 7 8) (mask4.load4 true false true false) 0 =
      (if mask4.load4 true false true false 0 = allOnes then int4.mk4 5 6 7 8 0
       else int4.mk4 1 2 3 4 0) :=
  (blend_select_semantics (int4.mk4 1 2 3 4) (int4.mk4 5 6 7 8)
    float4.zero4 float4.zero4 (mask4.load4 true false true false)
    (by decide) 0).1

/-! ### float3 division pads the divisor (claim C7) -/

/-- Division by the finite lane 1.0 is the identity (exact in IEEE). -/
theorem div_one_lane (x : RF) : RF.div x (RF.fin 1) = x := by
  cases x <;> norm_num [RF.div]

/-- C7: `float3 / float3` divides by the divisor with its 4th lane forced
    to 1, so lanes 0..2 are the lanewise IEEE quotients and the padding
    lane of the result is exactly the dividend's padding lane — no Inf or
    NaN is produced there, whatever b's 4th lane holds. -/
theorem float3_div_pads_divisor (a b : float3) :
    (float3.divF3 a b 0, float3.divF3 a b 1, float3.divF3 a b 2) =
      (RF.div (a 0) (b 0), RF.div (a 1) (b 1), RF.div (a 2) (b 2)) ∧
    float3.divF3 a b 3 = a 3 := by
  constructor
  · simp [float3.divF3, float4.divF, float4.xyz1, float4.insertF,
      (by decide : ¬((0 : Fin 4) = 3)), (by decide : ¬((1 : Fin 4) = 3)),
      (by decide : ¬((2 : Fin 4) = 3))]
  · simp [float3.divF3, float4.divF, float4.xyz1, float4.insertF, div_one_lane]

/-! ### Homogeneous divide (claim C9) -/

/-- C9: `hdiv` of a vector whose 4th lane is exactly 0 is the zero
    3-vector (no Inf or NaN in any lane); with a nonzero 4th lane it is
    the lanewise quotient by that lane. -/
theorem hdiv_zero_guard (a : float4) :
    (a 3 = RF.fin 0 → ∀ i : Fin 4, hdiv a i = RF.fin 0) ∧
    (a 3 ≠ RF.fin 0 →
      (hdiv a 0, hdiv a 1, hdiv a 2) =
        (RF.div (a 0) (a 3), RF.div (a 1) (a 3), RF.div (a 2) (a 3))) := by
  constructor
  · intro h i
    have hb : RF.beq (a 3) (RF.fin 0) = true := by rw [h]; rfl
    rw [hdiv, if_pos hb]
    fin_cases i <;> rfl
  · intro h
    have hb : RF.beq (a 3) (RF.fin 0) = false := by
      rcases Bool.eq_false_or_eq_true (RF.beq (a 3) (RF.fin 0)) with ht | hf
      · exact absurd ((beq_zero_iff _).1 ht) h
      · exact hf
    rw [hdiv, if_neg (by simp [hb])]
    rfl

/-- C9 witness: both branches of the theorem at concrete inputs. -/
theorem hdiv_zero_guard_witness :
    hdiv (float4.finGen 5 6 7 0) 0 = RF.fin 0 ∧
    (hdiv (float4.finGen 6 8 10 2) 0, hdiv (float4.finGen 6 8 10 2) 1,
     hdiv (float4.finGen 6 8 10 2) 2) =
      (RF.div (float4.finGen 6 8 10 2 0) (float4.finGen 6 8 10 2 3),
       RF.div (float4.finGen 6 8 10 2 1) (float4.finGen 6 8 10 2 3),
       RF.div (float4.finGen 6 8 10 2 2) (float4.finGen 6 8 10 2 3)) :=
  ⟨(hdiv_zero_guard (float4.finGen 5 6 7 0)).1 rfl 0,
   (hdiv_zero_guard (float4.finGen 6 8 10 2)).2 (by decide)⟩

/-! ### Narrowing stores (claim C10) -/

/-- C10: storing an int4 to unsigned short / unsigned char memory writes,
    per lane, the value reduced modulo 2^16 / 2^8 (the least significant
    bits), with no clamping or saturation even for negative or
    out-of-range lane values. -/
theorem narrowing_store_truncates (v : int4) (k : Fin 4) :
    ((int4.storeUShort v k : ℤ) = v k % 65536 ∧ int4.storeUShort v k < 65536) ∧
    ((int4.storeUChar v k : ℤ) = v k % 256 ∧ int4.storeUChar v k < 256) ∧
    int4.storeUShort (int4.mk4 (-1) 65537 123456 32768) =
      vec4 65535 1 57920 32768 ∧
    int4.storeUChar (int4.mk4 (-1) 300 (-300) 256) = vec4 255 44 212 0 := by
  refine ⟨⟨?_, ?_⟩, ⟨?_, ?_⟩, ?_, ?_⟩
  · simp only [int4.storeUShort]; omega
  · simp only [int4.storeUShort]; omega
  · simp only [int4.storeUChar]; omega
  · simp only [int4.storeUChar]; omega
  · funext i; fin_cases i <;> decide
  · funext i; fin_cases i <;> decide

/-! ### Normalization zero-guard (claim C6) -/

/-- C6: `normalized()` computes length² with the 3-component dot product
    and divides by its square root through `safe_div`: the exactly-zero
    vector normalizes to the zero vector with no NaN in any lane, the
    unit vector (1,0,0) normalizes to itself exactly, and
    `normalized_fast()` applies the same zero-guard. -/
theorem normalized_zero_guard :
    (∀ i : Fin 4,
      float3.normalized (float3.mk3 (RF.fin 0) (RF.fin 0) (RF.fin 0)) i = RF.fin 0) ∧
    (float3.normalized (float3.mk3 (RF.fin 1) (RF.fin 0) (RF.fin 0)) 0,
     float3.normalized (float3.mk3 (RF.fin 1) (RF.fin 0) (RF.fin 0)) 1,
     float3.normalized (float3.mk3 (RF.fin 1) (RF.fin 0) (RF.fin 0)) 2) =
      (RF.fin 1, RF.fin 0, RF.fin 0) ∧
    (∀ i : Fin 4,
      float3.normalizedFast (float3.mk3 (RF.fin 0) (RF.fin 0) (RF.fin 0)) i = RF.fin 0) := by
  decide

/-! ### Identity transform (claim C8) -/

/-- C8: a matrix44 built from the four rows of the external identity
    matrix transforms any 3-point to itself: the homogeneous w lane comes
    out as exactly 1, so the perspective divide is a divide by 1 and
    lanes 0..2 of the result equal the input lanes, whatever the
    (unspecified) padding lane of the input holds. -/
theorem transformp_identity (q0 q1 q2 : ℚ) (p : RF) :
    (matrix44.transformp identityRows (float4.mk4 (RF.fin q0) (RF.fin q1) (RF.fin q2) p) 0,
     matrix44.transformp identityRows (float4.mk4 (RF.fin q0) (RF.fin q1) (RF.fin q2) p) 1,
     matrix44.transformp identityRows (float4.mk4 (RF.fin q0) (RF.fin q1) (RF.fin q2) p) 2) =
      (RF.fin q0, RF.fin q1, RF.fin q2) := by
  simp [matrix44.transformp, identityRows, matrix44.mkRows, float4.bcast,
    float4.shuffleF, float4.mulF, float4.addF, float4.divF, float4.xyz0,
    float4.insertF, float4.mk4, float4.finGen, vec4, RF.mul, RF.add, RF.div,
    (by decide : ¬((0 : Fin 4) = 3)), (by decide : ¬((1 : Fin 4) = 3)),
    (by decide : ¬((2 : Fin 4) = 3))]

/-! ### floori (claim C3) -/

/-- The computable floor agrees with `Int.floor`. -/
theorem floorQ_eq (q : ℚ) : RF.floorQ q = Int.floor q := (Rat.floor_def).symm

/-- The `(int)` cast of an integral float is that integer. -/
theorem cvtInt_intCast (m : ℤ) : RF.cvtInt (RF.fin (m : ℚ)) = m := by
  rw [RF.cvtInt]
  rcases le_or_lt 0 (m : ℚ) with h | h
  · rw [if_pos h, floorQ_eq, Int.floor_intCast]
  · rw [if_neg (not_le.2 h), ← Int.cast_neg, floorQ_eq, Int.floor_intCast, neg_neg]

/-- C3: on the generic path `floori` is the exact floor-to-int conversion
    (rounding toward negative infinity, also on finite negative whole
    numbers); but the SSE2/SSE3 path, which truncates and then adds the
    -1/0 pattern of `a < 0`, returns -2 instead of -1 on the lane value
    -1.0.  The generic behaviour, the `(int)floor` declaration comment and
    the claim all require -1 there. -/
theorem floori_floor_and_sse2_bug :
    (∀ (a : float4) (k : Fin 4) (q : ℚ), a k = RF.fin q →
        float4.floori a k = Int.floor q) ∧
    (∀ k : Fin 4, float4.floori (float4.finGen (-1/2) (-1/2) (-1/2) (-1/2)) k = -1) ∧
    (∀ k : Fin 4, float4.flooriSSE2 (float4.finGen (-1) (-1) (-1) (-1)) k = -2) ∧
    Int.floor (-1 : ℚ) = -1 := by
  refine ⟨?_, by decide, by decide, by norm_num⟩
  intro a k q h
  rw [float4.floori, h, RF.floorRF, cvtInt_intCast, floorQ_eq]

/-- C3 witness: the generic floori applied to the lane value -0.5 gives
    its floor, -1. -/
theorem floori_floor_and_sse2_bug_witness :
    float4.floori (float4.finGen (-1/2) (-1/2) (-1/2) (-1/2)) 0 = Int.floor (-1/2 : ℚ) :=
  floori_floor_and_sse2_bug.1 (float4.finGen (-1/2) (-1/2) (-1/2) (-1/2)) 0 (-1/2) rfl

/-! ### round and rint (claim C4) -/

/-- `roundAwayQ` lands within half a unit of its argument. -/
theorem abs_sub_roundAwayQ_le (q : ℚ) : |q - (RF.roundAwayQ q : ℚ)| ≤ 1/2 := by
  rw [RF.roundAwayQ]
  rcases le_or_lt 0 q with h | h
  · rw [if_pos h, floorQ_eq]
    have h1 : (Int.floor (q + 1/2) : ℚ) ≤ q + 1/2 := Int.floor_le _
    have h2 : q + 1/2 < Int.floor (q + 1/2) + 1 := Int.lt_floor_add_one _
    rw [abs_le]
    constructor <;> linarith
  · rw [if_neg (not_le.2 h), floorQ_eq]
    have h1 : (Int.floor (-q + 1/2) : ℚ) ≤ -q + 1/2 := Int.floor_le _
    have h2 : -q + 1/2 < Int.floor (-q + 1/2) + 1 := Int.lt_floor_add_one _
    rw [abs_le]
    push_cast
    constructor <;> linarith

/-- `roundAwayQ q` is an integer nearest to `q`. -/
theorem roundAwayQ_nearest (q : ℚ) (n : ℤ) :
    |q - (RF.roundAwayQ q : ℚ)| ≤ |q - (n : ℚ)| := by
  by_cases hn : n = RF.roundAwayQ q
  · rw [hn]
  · have h1 : |q - (RF.roundAwayQ q : ℚ)| ≤ 1/2 := abs_sub_roundAwayQ_le q
    have h2 : (1 : ℚ) ≤ |(n : ℚ) - (RF.roundAwayQ q : ℚ)| := by
      have hz : n - RF.roundAwayQ q ≠ 0 := sub_ne_zero.2 hn
      have := Int.one_le_abs hz
      calc (1 : ℚ) ≤ ((|n - RF.roundAwayQ q| : ℤ) : ℚ) := by exact_mod_cast this
        _ = |(n : ℚ) - (RF.roundAwayQ q : ℚ)| := by push_cast; rfl
    have h3 : |(n : ℚ) - (RF.roundAwayQ q : ℚ)| ≤
        |(n : ℚ) - q| + |q - (RF.roundAwayQ q : ℚ)| := abs_sub_le _ _ _
    have h4 : |q - (n : ℚ)| = |(n : ℚ) - q| := abs_sub_comm _ _
    linarith

/-- On an exact half-way point `roundAwayQ` picks the integer of larger
    magnitude: ties are rounded away from zero. -/
theorem roundAwayQ_tie_away (q : ℚ) (h : q - Int.floor q = 1/2) :
    |(RF.roundAwayQ q : ℚ)| = |q| + 1/2 := by
  rcases le_or_lt 0 q with hq | hq
  · rw [RF.roundAwayQ, if_pos hq, floorQ_eq]
    have hfl : (Int.floor q : ℚ) = q - 1/2 := by linarith
    have hcast : q + 1/2 = ((Int.floor q + 1 : ℤ) : ℚ) := by push_cast; linarith
    rw [hcast, Int.floor_intCast]
    have h1 : (0 : ℚ) ≤ ((Int.floor q + 1 : ℤ) : ℚ) := by rw [← hcast]; linarith
    rw [abs_of_nonneg h1, abs_of_nonneg hq, ← hcast]
  · rw [RF.roundAwayQ, if_neg (not_le.2 hq), floorQ_eq]
    have hfl : (Int.floor q : ℚ) = q - 1/2 := by linarith
    have hcast : -q + 1/2 = ((-Int.floor q : ℤ) : ℚ) := by push_cast; linarith
    rw [hcast, Int.floor_intCast, neg_neg]
    rw [abs_of_neg hq]
    have h2 : (Int.floor q : ℚ) < 0 := by linarith
    calc |(Int.floor q : ℚ)| = -(Int.floor q : ℚ) := abs_of_neg h2
      _ = -q + 1/2 := by linarith

/-- C4: on the generic path `round` rounds each finite lane to the
    nearest integer with ties away from zero, and `rint` is
    `int4(round(a))`; but the SSE4.1 path (`_mm_round_ps` with
    `_MM_FROUND_TO_NEAREST_INT`) rounds ties to even, sending the lanes
    (0.5, 1.5, 2.5, -0.5) to (0, 2, 2, 0) where the generic path, the
    declaration comment and the claim give (1, 2, 3, -1). -/
theorem round_half_away_and_sse4_bug :
    (∀ (a : float4) (k : Fin 4) (q : ℚ), a k = RF.fin q →
        float4.roundF a k = RF.fin (RF.roundAwayQ q) ∧
        (∀ n : ℤ, |q - (RF.roundAwayQ q : ℚ)| ≤ |q - (n : ℚ)|) ∧
        (q - Int.floor q = 1/2 → |(RF.roundAwayQ q : ℚ)| = |q| + 1/2)) ∧
    (float4.rint = fun a k => RF.cvtInt (float4.roundF a k)) ∧
    (∀ k : Fin 4,
      (float4.roundF (float4.finGen (1/2) (3/2) (5/2) (-1/2)) k,
       float4.roundSSE4 (float4.finGen (1/2) (3/2) (5/2) (-1/2)) k) =
        (float4.finGen 1 2 3 (-1) k, float4.finGen 0 2 2 0 k)) := by
  refine ⟨?_, rfl, by decide⟩
  intro a k q h
  exact ⟨by rw [float4.roundF, h, RF.roundAway],
         fun n => roundAwayQ_nearest q n,
         fun ht => roundAwayQ_tie_away q ht⟩

/-- C4 witness: the generic round applied to the lane value 2.5. -/
theorem round_half_away_and_sse4_bug_witness :
    float4.roundF (float4.finGen (5/2) (5/2) (5/2) (5/2)) 0 =
      RF.fin (RF.roundAwayQ (5/2)) :=
  (round_half_away_and_sse4_bug.1 (float4.finGen (5/2) (5/2) (5/2) (5/2)) 0
    (5/2) rfl).1

end OIIOSimd
